import Mathlib

/-!
# dcrlibwallet: transaction index, notification dispatcher and sync register

A shallow embedding of `transactions.go` and `blockchainsync/info.go`.

* Go `int32`/`int64` values are integers; arithmetic that can overflow is
  wrapped explicitly (`wrapInt32`, `wrapInt64`).
* The storm database handle `lw.txDB` is the value `TxDB`: the stored
  transaction records, the `KeyEndBlock` slot of `BucketTxInfo`, and the
  outcomes of the engine operations still to come (`faults`), so that every
  database call can fail.
* The wallet, the decoder of package `txhelper`, the JSON encoder and the
  shutdown context are collaborators outside these two files; they are the
  fields of `Env`.
* Listener callbacks are recorded, in call order, in `LibWallet.trace`.
-/

namespace Dcrlibwallet

/-! ## Machine integers and constants -/

/-- Two's complement wrap-around of a Go `int32` result. -/
def wrapInt32 (x : Int) : Int := (x + 2147483648) % 4294967296 - 2147483648

/-- Two's complement wrap-around of a Go `int64` result. -/
def wrapInt64 (x : Int) : Int :=
  (x + 9223372036854775808) % 18446744073709551616 - 9223372036854775808

/-- Membership in the range of Go `int32`. -/
def isInt32 (x : Int) : Prop := -2147483648 ≤ x ∧ x ≤ 2147483647

instance (x : Int) : Decidable (isInt32 x) :=
  inferInstanceAs (Decidable (-2147483648 ≤ x ∧ x ≤ 2147483647))

/-- The constant `MaxReOrgBlocks` of `transactions.go`. -/
def MaxReOrgBlocks : Int := 6

/-! ## Errors -/

/-- Go `error` values that the embedded code tells apart. -/
inductive Error where
  /-- The value `storm.ErrNotFound`. -/
  | ErrNotFound
  /-- The value of `ctx.Err()` once the shutdown context is done. -/
  | Canceled
  /-- The run-time panic of a nil pointer dereference. -/
  | nilDereference
  /-- Any other error, identified by a code. -/
  | failure (code : Nat)
  deriving DecidableEq, Repr

/-! ## Data of the wallet packages -/

/-- A `chainhash.Hash`, kept abstract: a number, ordered as the store orders
the keys made of hashes. -/
abbrev Hash := Nat

/-- The `wallet.TransactionSummaryInput` fields that are read. -/
structure TransactionSummaryInput where
  Index : Nat
  PreviousAccount : Nat
  PreviousAmount : Int
  deriving DecidableEq, Repr

/-- The `wallet.TransactionSummaryOutput` fields that are read. -/
structure TransactionSummaryOutput where
  Amount : Int
  deriving DecidableEq, Repr

/-- The `wallet.TransactionSummary` fields that are read. -/
structure TransactionSummary where
  Hash : Hash
  Transaction : List Nat
  MyInputs : List TransactionSummaryInput
  MyOutputs : List TransactionSummaryOutput
  Timestamp : Int
  deriving DecidableEq, Repr

/-- A block header: its height, its timestamp in nanoseconds and the value of
`BlockHash()`. -/
structure BlockHeader where
  Height : Nat
  Timestamp : Int
  BlockHash : Hash
  deriving DecidableEq, Repr

/-- A `wallet.Block`: `Header` is `none` for the pseudo block of unmined
transactions. -/
structure Block where
  Header : Option BlockHeader
  Transactions : List TransactionSummary
  deriving DecidableEq, Repr

/-- A `wallet.BlockIdentifier`: a height or a hash. -/
structure BlockIdentifier where
  height : Int
  hash : Option Hash
  deriving DecidableEq, Repr

/-- The function `wallet.NewBlockIdentifierFromHeight`. -/
def NewBlockIdentifierFromHeight (height : Int) : BlockIdentifier :=
  { height := height, hash := none }

/-- The function `wallet.NewBlockIdentifierFromHash`. -/
def NewBlockIdentifierFromHash (hash : Option Hash) : BlockIdentifier :=
  { height := 0, hash := hash }

/-- The `wallet.BlockInfo` field that is read. -/
structure BlockInfo where
  Height : Int
  deriving DecidableEq, Repr

/-- A `txhelper.WalletInput`. -/
structure WalletInput where
  Index : Int
  PreviousAccount : Int
  AccountName : String
  deriving DecidableEq, Repr

/-- A `txhelper.TxInfoFromWallet`, the input of the decoder. -/
structure TxInfoFromWallet where
  BlockHeight : Int
  Timestamp : Int
  Hex : List Nat
  Confirmations : Int
  Inputs : List WalletInput
  TotalOutputAmount : Int
  TotalInputAmount : Int
  deriving DecidableEq, Repr

/-- Modelled from the spec: the record type `txhelper.Transaction` is declared
outside the two source files. The fields are those of the data model: the hash
(the unique key), the hex encoding, the timestamp, the block height, the
confirmation count and the two totals. -/
structure Transaction where
  Hash : Hash
  Hex : List Nat
  Timestamp : Int
  BlockHeight : Int
  Confirmations : Int
  TotalInputAmount : Int
  TotalOutputAmount : Int
  deriving DecidableEq, Repr

/-- A `wallet.TransactionNotifications` value received from the feed. -/
structure TransactionNotifications where
  UnminedTransactions : List TransactionSummary
  AttachedBlocks : List Block
  deriving DecidableEq, Repr

/-! ## The collaborators -/

/-- What the embedded code calls but does not define. -/
structure Env where
  /-- The method `lw.wallet.BlockInfo`. -/
  BlockInfo : BlockIdentifier → Except Error BlockInfo
  /-- The method `lw.GetBestBlock`. -/
  GetBestBlock : Int
  /-- The method `lw.AccountName`. -/
  AccountName : Nat → String
  /-- The function `txhelper.TxConfirmations`. -/
  TxConfirmations : Int → Int → Int
  /-- The function `txhelper.DecodeTransaction` at the active network. -/
  DecodeTransaction : TxInfoFromWallet → Except Error Transaction
  /-- The function `json.Marshal` on one record. -/
  Marshal : Transaction → Except Error String
  /-- The function `json.Marshal` on a list of records. -/
  MarshalList : List Transaction → Except Error String
  /-- The number of registered sync progress listeners. -/
  syncProgressListeners : Nat
  /-- The blocks that `lw.wallet.GetTransactions` walks for a range. -/
  blocksInRange : BlockIdentifier → BlockIdentifier → List Block
  /-- Whether the shutdown context is done when the callback finishes its
  block number `i` of a scan. -/
  ctxDone : Nat → Bool

/-! ## The database -/

/-- The storm handle `lw.txDB`. -/
structure TxDB where
  /-- The stored `txhelper.Transaction` records. -/
  txs : List Transaction
  /-- The value under `KeyEndBlock` in `BucketTxInfo`, when one is stored. -/
  endBlock : Option Int
  /-- Outcome of the engine operations to come, oldest first: `some c` makes
  the operation fail with error code `c`. Past the end, operations succeed. -/
  faults : List (Option Nat)
  deriving DecidableEq, Repr

namespace TxDB

/-- Consume the outcome of the next engine operation. -/
def nextFault (db : TxDB) : Option Error × TxDB :=
  match db.faults with
  | [] => (none, db)
  | f :: fs => (f.map Error.failure, { db with faults := fs })

/-- The call `Get(BucketTxInfo, KeyEndBlock, &v)`. -/
def Get (db : TxDB) : Except Error Int × TxDB :=
  match db.nextFault with
  | (some e, db1) => (.error e, db1)
  | (none, db1) =>
    match db1.endBlock with
    | none => (.error Error.ErrNotFound, db1)
    | some v => (.ok v, db1)

/-- The call `Set(BucketTxInfo, KeyEndBlock, &v)`. -/
def Set (db : TxDB) (v : Int) : Option Error × TxDB :=
  match db.nextFault with
  | (some e, db1) => (some e, db1)
  | (none, db1) => (none, { db1 with endBlock := some v })

/-- The call `One("Hash", hash, &oldTx)`: the first record with that hash. -/
def One (db : TxDB) (hash : Hash) : Except Error Transaction × TxDB :=
  match db.nextFault with
  | (some e, db1) => (.error e, db1)
  | (none, db1) =>
    match db1.txs.find? (fun r => r.Hash == hash) with
    | none => (.error Error.ErrNotFound, db1)
    | some r => (.ok r, db1)

/-- The call `DeleteStruct(&oldTx)`: removes the record stored under the key
of `oldTx`. -/
def DeleteStruct (db : TxDB) (oldTx : Transaction) : Option Error × TxDB :=
  match db.nextFault with
  | (some e, db1) => (some e, db1)
  | (none, db1) =>
    if db1.txs.any (fun r => r.Hash == oldTx.Hash) then
      (none, { db1 with txs := db1.txs.eraseP (fun r => r.Hash == oldTx.Hash) })
    else (some Error.ErrNotFound, db1)

/-- The call `Save(tx)` of a record whose key is not stored. -/
def Save (db : TxDB) (tx : Transaction) : Option Error × TxDB :=
  match db.nextFault with
  | (some e, db1) => (some e, db1)
  | (none, db1) => (none, { db1 with txs := db1.txs ++ [tx] })

/-- The call `Count(&txhelper.Transaction{})`. -/
def Count (db : TxDB) : Except Error Nat × TxDB :=
  match db.nextFault with
  | (some e, db1) => (.error e, db1)
  | (none, db1) => (.ok db1.txs.length, db1)

end TxDB

/-! ## blockchainsync/info.go -/

/-- The type `SyncStep` (`uint8`). -/
abbrev SyncStep := Nat

/-- The private state of `SyncInfo`, over the status type of the package. -/
structure SyncInfo (Status : Type) where
  status : Status
  connectedPeers : Int
  error : String
  done : Bool
  currentStep : SyncStep
  totalSyncProgress : Int
  totalTimeRemaining : String
  totalHeadersToFetch : Int
  daysBehind : String
  fetchedHeadersCount : Int
  headersFetchProgress : Int
  headersFetchTimeTaken : Int
  addressDiscoveryProgress : Int
  totalDiscoveryTime : Int
  rescanProgress : Int
  currentRescanHeight : Int

/-- The snapshot type `readableSyncInfo`. -/
structure readableSyncInfo (Status : Type) where
  Status : Status
  ConnectedPeers : Int
  Error : String
  Done : Bool
  CurrentStep : SyncStep
  TotalSyncProgress : Int
  TotalTimeRemaining : String
  TotalHeadersToFetch : Int
  DaysBehind : String
  FetchedHeadersCount : Int
  HeadersFetchProgress : Int
  HeadersFetchTimeTaken : Int
  AddressDiscoveryProgress : Int
  TotalDiscoveryTime : Int
  RescanProgress : Int
  CurrentRescanHeight : Int

namespace SyncInfo

variable {Status : Type}

/-- The method `SyncInfo.Read`. -/
def Read (syncInfo : SyncInfo Status) : readableSyncInfo Status :=
  { Status := syncInfo.status
    ConnectedPeers := syncInfo.connectedPeers
    Error := syncInfo.error
    Done := syncInfo.done
    CurrentStep := syncInfo.currentStep
    TotalSyncProgress := syncInfo.totalSyncProgress
    TotalTimeRemaining := syncInfo.totalTimeRemaining
    TotalHeadersToFetch := syncInfo.totalHeadersToFetch
    DaysBehind := syncInfo.daysBehind
    FetchedHeadersCount := syncInfo.fetchedHeadersCount
    HeadersFetchProgress := syncInfo.headersFetchProgress
    HeadersFetchTimeTaken := syncInfo.headersFetchTimeTaken
    AddressDiscoveryProgress := syncInfo.addressDiscoveryProgress
    TotalDiscoveryTime := syncInfo.totalDiscoveryTime
    RescanProgress := syncInfo.rescanProgress
    CurrentRescanHeight := syncInfo.currentRescanHeight }

/-- The method `SyncInfo.Write`: sixteen assignments, in source order. -/
def Write (syncInfo : SyncInfo Status) (info : readableSyncInfo Status) (status : Status) :
    SyncInfo Status :=
  let s := { syncInfo with status := status }
  let s := { s with connectedPeers := info.ConnectedPeers }
  let s := { s with error := info.Error }
  let s := { s with done := info.Done }
  let s := { s with currentStep := info.CurrentStep }
  let s := { s with totalSyncProgress := info.TotalSyncProgress }
  let s := { s with totalTimeRemaining := info.TotalTimeRemaining }
  let s := { s with totalHeadersToFetch := info.TotalHeadersToFetch }
  let s := { s with daysBehind := info.DaysBehind }
  let s := { s with fetchedHeadersCount := info.FetchedHeadersCount }
  let s := { s with headersFetchProgress := info.HeadersFetchProgress }
  let s := { s with headersFetchTimeTaken := info.HeadersFetchTimeTaken }
  let s := { s with addressDiscoveryProgress := info.AddressDiscoveryProgress }
  let s := { s with totalDiscoveryTime := info.TotalDiscoveryTime }
  let s := { s with rescanProgress := info.RescanProgress }
  { s with currentRescanHeight := info.CurrentRescanHeight }

end SyncInfo

/-! ## The storm query used by the listing -/

/-- A storm query on the transaction bucket: `Select()` with its modifiers. -/
structure Query where
  orderByTimestamp : Bool
  reverse : Bool
  skip : Nat
  limit : Option Nat
  deriving DecidableEq, Repr

/-- Ascending order of timestamps. -/
def tsAsc (a b : Transaction) : Prop := a.Timestamp ≤ b.Timestamp

/-- Descending order of timestamps. -/
def tsDesc (a b : Transaction) : Prop := b.Timestamp ≤ a.Timestamp

instance : DecidableRel tsAsc := fun a b => inferInstanceAs (Decidable (a.Timestamp ≤ b.Timestamp))

instance : DecidableRel tsDesc := fun a b => inferInstanceAs (Decidable (b.Timestamp ≤ a.Timestamp))

instance : IsTotal Transaction tsDesc := ⟨fun a b => le_total b.Timestamp a.Timestamp⟩

instance : IsTrans Transaction tsDesc := ⟨fun _ _ _ h1 h2 => le_trans h2 h1⟩

/-- Ascending order of keys: the order in which the bucket holds the records,
each under its hash, whatever the order of the saves. -/
def keyAsc (a b : Transaction) : Prop := a.Hash ≤ b.Hash

instance : DecidableRel keyAsc := fun a b => inferInstanceAs (Decidable (a.Hash ≤ b.Hash))

instance : IsTotal Transaction keyAsc := ⟨fun a b => le_total a.Hash b.Hash⟩

instance : IsTrans Transaction keyAsc := ⟨fun _ _ _ h1 h2 => le_trans h1 h2⟩

namespace Query

/-- The call `lw.txDB.Select()`: every record, unordered, no skip, no cap. -/
def Select : Query := { orderByTimestamp := false, reverse := false, skip := 0, limit := none }

/-- The modifier `OrderBy("Timestamp")`. -/
def OrderBy (q : Query) : Query := { q with orderByTimestamp := true }

/-- The modifier `Reverse()`. -/
def Reverse (q : Query) : Query := { q with reverse := true }

/-- The modifier `Skip(n)`. -/
def Skip (q : Query) (n : Nat) : Query := { q with skip := n }

/-- The modifier `Limit(n)`. -/
def Limit (q : Query) (n : Nat) : Query := { q with limit := some n }

/-- The records as the cursor of a query walks the bucket: in ascending order
of key, and from the last key to the first for a reversed query. -/
def scan (q : Query) (txs : List Transaction) : List Transaction :=
  let byKey := txs.insertionSort keyAsc
  if q.reverse then byKey.reverse else byKey

/-- The records a query selects from the stored ones: scanned in key order,
ordered by timestamp (records with equal timestamps stay in scan order), then
skipped, then capped. -/
def run (q : Query) (txs : List Transaction) : List Transaction :=
  let scanned := q.scan txs
  let ordered :=
    if q.orderByTimestamp then
      (if q.reverse then scanned.insertionSort tsDesc else scanned.insertionSort tsAsc)
    else scanned
  let skipped := ordered.drop q.skip
  match q.limit with
  | none => skipped
  | some n => skipped.take n

end Query

/-- The call `query.Find(&transactions)`: the selected records, with
`storm.ErrNotFound` when there is none. -/
def TxDB.Find (db : TxDB) (q : Query) : (List Transaction × Option Error) × TxDB :=
  match db.nextFault with
  | (some e, db1) => (([], some e), db1)
  | (none, db1) =>
    match q.run db1.txs with
    | [] => (([], some Error.ErrNotFound), db1)
    | r :: rs => ((r :: rs, none), db1)

/-! ## transactions.go -/

/-- A call made on a listener, the `afterIndexing` callback, or the start of a
range scan of the wallet. -/
inductive Effect where
  /-- The call `OnIndexTransactions(totalIndex)` on progress listener `listener`. -/
  | OnIndexTransactions (listener : Nat) (totalIndex : Int)
  /-- The call `listener.OnTransaction(transaction)`. -/
  | OnTransaction (transaction : String)
  /-- The call `listener.OnTransactionConfirmed(hash, height)`. -/
  | OnTransactionConfirmed (hash : Hash) (height : Int)
  /-- The call `listener.OnBlockAttached(height, timestamp)`. -/
  | OnBlockAttached (height : Int) (timestamp : Int)
  /-- The call `afterIndexing()`. -/
  | afterIndexing
  /-- The call `lw.wallet.GetTransactions(rangeFn, startBlock, endBlock)`. -/
  | GetTransactions (startBlock endBlock : BlockIdentifier)
  deriving DecidableEq, Repr

/-- The mutable part of `LibWallet` and the calls made so far. -/
structure LibWallet where
  txDB : TxDB
  trace : List Effect
  deriving DecidableEq, Repr

/-- The two hex digits of each byte, as `fmt.Sprintf("%x", bytes)` prints them. -/
def hexDigits (bytes : List Nat) : List Nat :=
  bytes.flatMap (fun b => [b / 16 % 16, b % 16])

/-- Lines 288-297 of `decodeTransactionWithTxSummary`: the block height. -/
def resolveBlockHeight (env : Env) (txSummary : Option TransactionSummary)
    (blockHash : Option Hash) : Int :=
  match txSummary with
  | none => -1
  | some _ =>
    match env.BlockInfo (NewBlockIdentifierFromHash blockHash) with
    | .error _ => -1
    | .ok blockInfo => blockInfo.Height

/-- Lines 299-321 of `decodeTransactionWithTxSummary`: the value `walletTx`
handed to the decoder. -/
def walletTxOf (env : Env) (txSummary : TransactionSummary) (blockHeight : Int) :
    TxInfoFromWallet :=
  let walletInputs := txSummary.MyInputs.map (fun input =>
    ({ Index := wrapInt32 input.Index
       PreviousAccount := wrapInt32 input.PreviousAccount
       AccountName := env.AccountName input.PreviousAccount } : WalletInput))
  let totalInputAmount := txSummary.MyInputs.foldl
    (fun acc input => wrapInt64 (acc + input.PreviousAmount)) 0
  let totalOutputAmount := txSummary.MyOutputs.foldl
    (fun acc output => wrapInt64 (acc + output.Amount)) 0
  { BlockHeight := blockHeight
    Timestamp := txSummary.Timestamp
    Hex := hexDigits txSummary.Transaction
    Confirmations := env.TxConfirmations blockHeight env.GetBestBlock
    Inputs := walletInputs
    TotalOutputAmount := totalOutputAmount
    TotalInputAmount := totalInputAmount }

/-- The value `walletTx` that `decodeTransactionWithTxSummary` builds, when
the summary can be read. -/
def txInfoFromWallet (env : Env) (txSummary : Option TransactionSummary)
    (blockHash : Option Hash) : Option TxInfoFromWallet :=
  match txSummary with
  | none => none
  | some s => some (walletTxOf env s (resolveBlockHeight env txSummary blockHash))

/-- The method `decodeTransactionWithTxSummary`. -/
def decodeTransactionWithTxSummary (env : Env) (txSummary : Option TransactionSummary)
    (blockHash : Option Hash) : Except Error Transaction :=
  match txInfoFromWallet env txSummary blockHash with
  | none => .error Error.nilDereference
  | some walletTx => env.DecodeTransaction walletTx

/-- The method `saveOrUpdateTx`. -/
def saveOrUpdateTx (tx : Transaction) (db : TxDB) : Option Error × TxDB :=
  match db.One tx.Hash with
  | (.error err, db1) =>
    if err ≠ Error.ErrNotFound then (some err, db1)
    else db1.Save tx
  | (.ok oldTx, db1) =>
    match db1.DeleteStruct oldTx with
    | (some err, db2) => (some err, db2)
    | (none, db2) => db2.Save tx

/-- The method `GetTransactionsRaw`. -/
def GetTransactionsRaw (offset limit : Int) (db : TxDB) :
    (List Transaction × Option Error) × TxDB :=
  let query := Query.Select.OrderBy.Reverse
  let query := if offset > 0 then query.Skip offset.toNat else query
  let query := if limit > 0 then query.Limit limit.toNat else query
  db.Find query

/-- The method `GetTransactions`. -/
def GetTransactions (env : Env) (offset limit : Int) (db : TxDB) :
    (String × Option Error) × TxDB :=
  match GetTransactionsRaw offset limit db with
  | ((_, some _), db1) => (("", none), db1)
  | ((transactions, none), db1) =>
    match env.MarshalList transactions with
    | .error err => (("", some err), db1)
    | .ok jsonEncodedTransactions => ((jsonEncodedTransactions, none), db1)

/-- The state of one `IndexTransactions` call: the wallet and the local
counter `totalIndex`. -/
structure IndexState where
  lw : LibWallet
  totalIndex : Int
  deriving DecidableEq, Repr

/-- The calls `OnIndexTransactions(totalIndex)` on every progress listener. -/
def progressCalls (env : Env) (totalIndex : Int) : List Effect :=
  (List.range env.syncProgressListeners).map (fun i => Effect.OnIndexTransactions i totalIndex)

/-- One iteration of the transaction loop of `rangeFn` (lines 32-54). -/
def indexTx (env : Env) (block : Block) (txSummary : TransactionSummary) (st : IndexState) :
    Option Error × IndexState :=
  let blockHash : Option Hash :=
    match block.Header with
    | some header => some header.BlockHash
    | none => none
  match decodeTransactionWithTxSummary env (some txSummary) blockHash with
  | .error err => (some err, st)
  | .ok tx =>
    match saveOrUpdateTx tx st.lw.txDB with
    | (some err, db) => (some err, { st with lw := { st.lw with txDB := db } })
    | (none, db) =>
      let totalIndex := wrapInt32 (st.totalIndex + 1)
      (none, { lw := { txDB := db, trace := st.lw.trace ++ progressCalls env totalIndex }
               totalIndex := totalIndex })

/-- The transaction loop of `rangeFn` (lines 31-55): stops at the first error. -/
def indexTxs (env : Env) (block : Block) :
    List TransactionSummary → IndexState → Option Error × IndexState
  | [], st => (none, st)
  | txSummary :: rest, st =>
    match indexTx env block txSummary st with
    | (some err, st1) => (some err, st1)
    | (none, st1) => indexTxs env block rest st1

/-- The closure `rangeFn` of `IndexTransactions`, with the captured variable
`endBlockHeight` and the state of the shutdown context as arguments. -/
def rangeFn (env : Env) (endBlockHeight : Int) (done : Bool) (block : Block) (st : IndexState) :
    (Bool × Option Error) × IndexState :=
  match indexTxs env block block.Transactions st with
  | (some err, st1) => ((false, some err), st1)
  | (none, st1) =>
    let written : Option Error × IndexState :=
      match block.Header with
      | some _ =>
        match st1.lw.txDB.Set endBlockHeight with
        | (some err, db) => (some err, { st1 with lw := { st1.lw with txDB := db } })
        | (none, db) => (none, { st1 with lw := { st1.lw with txDB := db } })
      | none => (none, st1)
    match written with
    | (some err, st2) => ((false, some err), st2)
    | (none, st2) =>
      if done then ((true, some Error.Canceled), st2) else ((false, none), st2)

/-- The method `lw.wallet.GetTransactions` on the blocks of its range: it calls
the callback block by block and stops at the first error or stop request. -/
def walletGetTransactions (f : Nat → Block → IndexState → (Bool × Option Error) × IndexState) :
    Nat → List Block → IndexState → Option Error × IndexState
  | _, [], st => (none, st)
  | i, block :: rest, st =>
    match f i block st with
    | ((_, some err), st1) => (some err, st1)
    | ((true, none), st1) => (none, st1)
    | ((false, none), st1) => walletGetTransactions f (i + 1) rest st1

/-- Lines 83-88 of `IndexTransactions`: the start height of a resumed scan. -/
def resumeHeight (previousEndBlock : Int) : Int :=
  let startBlockHeight := previousEndBlock
  let startBlockHeight := wrapInt32 (startBlockHeight - MaxReOrgBlocks)
  if startBlockHeight < 0 then 0 else startBlockHeight

/-- Lines 91-109 of `IndexTransactions`: the range scan from `startBlockHeight`
and the deferred completion. -/
def scanRange (env : Env) (startBlockHeight endBlockHeight : Int) (lw : LibWallet) :
    Option Error × LibWallet :=
  let endBlockHeight :=
    if startBlockHeight > endBlockHeight then env.GetBestBlock else endBlockHeight
  let startBlock := NewBlockIdentifierFromHeight startBlockHeight
  let endBlock := NewBlockIdentifierFromHeight endBlockHeight
  let lw0 : LibWallet :=
    { lw with trace := lw.trace ++ [Effect.GetTransactions startBlock endBlock] }
  let scanned := walletGetTransactions (fun i => rangeFn env endBlockHeight (env.ctxDone i)) 0
    (env.blocksInRange startBlock endBlock) { lw := lw0, totalIndex := 0 }
  let lw1 : LibWallet := { scanned.2.lw with trace := scanned.2.lw.trace ++ [Effect.afterIndexing] }
  (scanned.1, { lw1 with txDB := lw1.txDB.Count.2 })

/-- The method `IndexTransactions`. -/
def IndexTransactions (env : Env) (startBlockHeight endBlockHeight : Int) (lw : LibWallet) :
    Option Error × LibWallet :=
  if startBlockHeight = -1 then
    match lw.txDB.Get with
    | (.error err, db) =>
      if err ≠ Error.ErrNotFound then (some err, { lw with txDB := db })
      else scanRange env (resumeHeight 0) endBlockHeight { lw with txDB := db }
    | (.ok previousEndBlock, db) =>
      scanRange env (resumeHeight previousEndBlock) endBlockHeight { lw with txDB := db }
  else scanRange env startBlockHeight endBlockHeight lw

/-- How one pass of the dispatcher loop ends. -/
inductive Flow where
  /-- The loop goes on to receive the next notification. -/
  | next
  /-- The goroutine returned: the dispatcher is over. -/
  | returned
  /-- The goroutine panicked on a nil header. -/
  | panicked
  deriving DecidableEq, Repr

/-- The loop over `txNotification.UnminedTransactions` (lines 153-172). -/
def unminedLoop (env : Env) : List TransactionSummary → LibWallet → Flow × LibWallet
  | [], lw => (Flow.next, lw)
  | txSummary :: rest, lw =>
    match decodeTransactionWithTxSummary env (some txSummary) none with
    | .error _ => (Flow.returned, lw)
    | .ok decodedTx =>
      let lw1 : LibWallet := { lw with txDB := (saveOrUpdateTx decodedTx lw.txDB).2 }
      match env.Marshal decodedTx with
      | .error _ => unminedLoop env rest lw1
      | .ok result =>
        unminedLoop env rest { lw1 with trace := lw1.trace ++ [Effect.OnTransaction result] }

/-- The loop over the transactions of one attached block (lines 179-193). -/
def blockTxLoop (env : Env) (header : BlockHeader) :
    List TransactionSummary → LibWallet → Flow × LibWallet
  | [], lw => (Flow.next, lw)
  | txSummary :: rest, lw =>
    match decodeTransactionWithTxSummary env (some txSummary) (some header.BlockHash) with
    | .error _ => (Flow.returned, lw)
    | .ok decodedTx =>
      match saveOrUpdateTx decodedTx lw.txDB with
      | (some _, db) => (Flow.returned, { lw with txDB := db })
      | (none, db) =>
        blockTxLoop env header rest
          { txDB := db
            trace := lw.trace ++
              [Effect.OnTransactionConfirmed txSummary.Hash (wrapInt32 header.Height)] }

/-- The loop over `txNotification.AttachedBlocks` (lines 175-194). -/
def attachedLoop (env : Env) : List Block → LibWallet → Flow × LibWallet
  | [], lw => (Flow.next, lw)
  | block :: rest, lw =>
    match block.Header with
    | none => (Flow.panicked, lw)
    | some header =>
      let lw1 : LibWallet :=
        { lw with trace := lw.trace ++
            [Effect.OnBlockAttached (wrapInt32 header.Height) header.Timestamp] }
      match blockTxLoop env header block.Transactions lw1 with
      | (Flow.next, lw2) => attachedLoop env rest lw2
      | stopped => stopped

/-- The body of the dispatcher loop for one received notification. -/
def handleNotification (env : Env) (txNotification : TransactionNotifications) (lw : LibWallet) :
    Flow × LibWallet :=
  match unminedLoop env txNotification.UnminedTransactions lw with
  | (Flow.next, lw1) => attachedLoop env txNotification.AttachedBlocks lw1
  | stopped => stopped

/-- The goroutine of `TransactionNotification` on the notifications that the
feed delivers, in order. The result `Flow.next` is the loop waiting for more. -/
def TransactionNotification (env : Env) :
    List TransactionNotifications → LibWallet → Flow × LibWallet
  | [], lw => (Flow.next, lw)
  | txNotification :: rest, lw =>
    match handleNotification env txNotification lw with
    | (Flow.next, lw1) => TransactionNotification env rest lw1
    | stopped => stopped

/-! ## Statements of the specification -/

/-- The start height that the specification gives to a resumed scan: `0` when
no watermark is stored, else the watermark less the margin of six blocks, not
below `0`. -/
def expectedResumeStart (stored : Option Int) : Int :=
  match stored with
  | none => 0
  | some W => max 0 (W - 6)

/-- The test `r.Hash == h` that `One` and `DeleteStruct` apply to a record. -/
def hasHash (h : Hash) (r : Transaction) : Bool := r.Hash == h

/-- While the dispatcher processes the notification `n` from the state `lw`,
the decoding of a transaction fails, or the storing of a transaction of an
attached block fails, every transaction and block before it having been
processed; `lwF` is the state at that failure. -/
def NotificationFails (env : Env) (n : TransactionNotifications) (lw lwF : LibWallet) : Prop :=
  (∃ pre k post, n.UnminedTransactions = pre ++ k :: post
      ∧ unminedLoop env pre lw = (Flow.next, lwF)
      ∧ ∃ err, decodeTransactionWithTxSummary env (some k) none = .error err)
  ∨ (∃ lw1 bpre b bpost header lw2 pre k post lw3,
      unminedLoop env n.UnminedTransactions lw = (Flow.next, lw1)
      ∧ n.AttachedBlocks = bpre ++ b :: bpost
      ∧ attachedLoop env bpre lw1 = (Flow.next, lw2)
      ∧ b.Header = some header
      ∧ b.Transactions = pre ++ k :: post
      ∧ blockTxLoop env header pre
          { lw2 with trace := lw2.trace ++
              [Effect.OnBlockAttached (wrapInt32 header.Height) header.Timestamp] }
        = (Flow.next, lw3)
      ∧ ((∃ err, decodeTransactionWithTxSummary env (some k) (some header.BlockHash)
              = .error err ∧ lwF = lw3)
        ∨ (∃ tx err, decodeTransactionWithTxSummary env (some k) (some header.BlockHash)
              = .ok tx
            ∧ (saveOrUpdateTx tx lw3.txDB).1 = some err
            ∧ lwF = { lw3 with txDB := (saveOrUpdateTx tx lw3.txDB).2 })))

/-! ## Concrete collaborators and inputs -/

/-- A wallet whose `BlockInfo` resolves a hash `h` to height `h`, and an
identifier without hash to the block at its height (`0` for the identifier
that `NewBlockIdentifierFromHash` builds from a nil hash); a decoder that
rejects an empty serialization and otherwise reads the hash from the bytes. -/
def demoEnv : Env where
  BlockInfo := fun id =>
    match id.hash with
    | some h => .ok { Height := h }
    | none => .ok { Height := id.height }
  GetBestBlock := 10
  AccountName := fun _ => "default"
  TxConfirmations := fun h best => if h = -1 then 0 else best - h + 1
  DecodeTransaction := fun w =>
    match w.Hex with
    | [] => .error (Error.failure 7)
    | d :: ds =>
      .ok { Hash := (d :: ds).foldl (fun acc x => 16 * acc + x) 0
            Hex := w.Hex
            Timestamp := w.Timestamp
            BlockHeight := w.BlockHeight
            Confirmations := w.Confirmations
            TotalInputAmount := w.TotalInputAmount
            TotalOutputAmount := w.TotalOutputAmount }
  Marshal := fun _ => .ok "tx"
  MarshalList := fun _ => .ok "txs"
  syncProgressListeners := 1
  blocksInRange := fun _ _ => []
  ctxDone := fun _ => false

/-- A summary with serialization `bytes` and timestamp `ts`. -/
def demoSummary (hash : Hash) (bytes : List Nat) (ts : Int) : TransactionSummary :=
  { Hash := hash, Transaction := bytes, MyInputs := [], MyOutputs := [], Timestamp := ts }

/-- An empty database with the given fault schedule. -/
def demoDB (faults : List (Option Nat)) : TxDB :=
  { txs := [], endBlock := none, faults := faults }

/-- A record with hash `h` and timestamp `ts`. -/
def demoTx (h : Hash) (ts : Int) : Transaction :=
  { Hash := h, Hex := [], Timestamp := ts, BlockHeight := -1, Confirmations := 0,
    TotalInputAmount := 0, TotalOutputAmount := 0 }

/-! ## Basic facts about the database operations -/

theorem nextFault_txs (db : TxDB) : db.nextFault.2.txs = db.txs := by
  unfold TxDB.nextFault
  cases db.faults <;> rfl

theorem nextFault_endBlock (db : TxDB) : db.nextFault.2.endBlock = db.endBlock := by
  unfold TxDB.nextFault
  cases db.faults <;> rfl

theorem nextFault_ne_notFound (db : TxDB) : db.nextFault.1 ≠ some Error.ErrNotFound := by
  unfold TxDB.nextFault
  rcases db.faults with _ | ⟨f, fs⟩
  · simp
  · cases f <;> simp

theorem wrapInt32_id (x : Int) (h : isInt32 x) : wrapInt32 x = x := by
  unfold isInt32 at h
  unfold wrapInt32
  omega

theorem resumeHeight_eq (W : Int) (h : -2147483642 ≤ W ∧ W ≤ 2147483647) :
    resumeHeight W = max 0 (W - 6) := by
  unfold resumeHeight MaxReOrgBlocks
  have hw : wrapInt32 (W - 6) = W - 6 := wrapInt32_id _ (by unfold isInt32; omega)
  simp only [hw]
  split
  · rw [max_eq_left (by omega)]
  · rw [max_eq_right (by omega)]

theorem get_of_ok (db : TxDB) (hok : db.nextFault.1 = none) :
    db.Get = ((match db.endBlock with
      | none => Except.error Error.ErrNotFound
      | some v => Except.ok v), db.nextFault.2) := by
  have h2 := nextFault_endBlock db
  unfold TxDB.Get
  rcases hnf : db.nextFault with ⟨f, db1⟩
  rw [hnf] at hok h2
  simp only at hok h2
  subst hok
  simp only [h2]
  cases db.endBlock <;> rfl

/-! ## C3: the sync register -/

/-- C3: after `Write(info, st)` on any register state, `Read()` returns the
snapshot `info` with its `Status` replaced by `st`: the status is `st`, the
fifteen other fields are those of `info`, and the register state after the
write is the same whatever the state before it was. -/
theorem SyncInfo.read_after_write {Status : Type} (s : SyncInfo Status)
    (info : readableSyncInfo Status) (st : Status) :
    (s.Write info st).Read = { info with Status := st }
    ∧ (s.Write info st).Read.Status = st
    ∧ (s.Write info st).Read.ConnectedPeers = info.ConnectedPeers
    ∧ (s.Write info st).Read.Error = info.Error
    ∧ (s.Write info st).Read.Done = info.Done
    ∧ (s.Write info st).Read.CurrentStep = info.CurrentStep
    ∧ (s.Write info st).Read.TotalSyncProgress = info.TotalSyncProgress
    ∧ (s.Write info st).Read.TotalTimeRemaining = info.TotalTimeRemaining
    ∧ (s.Write info st).Read.TotalHeadersToFetch = info.TotalHeadersToFetch
    ∧ (s.Write info st).Read.DaysBehind = info.DaysBehind
    ∧ (s.Write info st).Read.FetchedHeadersCount = info.FetchedHeadersCount
    ∧ (s.Write info st).Read.HeadersFetchProgress = info.HeadersFetchProgress
    ∧ (s.Write info st).Read.HeadersFetchTimeTaken = info.HeadersFetchTimeTaken
    ∧ (s.Write info st).Read.AddressDiscoveryProgress = info.AddressDiscoveryProgress
    ∧ (s.Write info st).Read.TotalDiscoveryTime = info.TotalDiscoveryTime
    ∧ (s.Write info st).Read.RescanProgress = info.RescanProgress
    ∧ (s.Write info st).Read.CurrentRescanHeight = info.CurrentRescanHeight
    ∧ ∀ s0 : SyncInfo Status, s0.Write info st = s.Write info st := by
  refine ⟨rfl, rfl, rfl, rfl, rfl, rfl, rfl, rfl, rfl, rfl, rfl, rfl, rfl, rfl, rfl, rfl, rfl, ?_⟩
  intro s0
  rfl

/-! ## The trace only grows during a scan -/

theorem indexTx_trace (env : Env) (block : Block) (t : TransactionSummary) (st : IndexState) :
    st.lw.trace <+: (indexTx env block t st).2.lw.trace := by
  unfold indexTx
  simp only
  split
  · exact List.prefix_refl _
  · split
    · exact List.prefix_refl _
    · exact List.prefix_append _ _

theorem indexTxs_trace (env : Env) (block : Block) (ts : List TransactionSummary)
    (st : IndexState) : st.lw.trace <+: (indexTxs env block ts st).2.lw.trace := by
  induction ts generalizing st with
  | nil => exact List.prefix_refl _
  | cons t ts ih =>
    have h1 := indexTx_trace env block t st
    unfold indexTxs
    rcases hr : indexTx env block t st with ⟨r, st1⟩
    rw [hr] at h1
    cases r with
    | some e => exact h1
    | none => exact h1.trans (ih st1)

theorem rangeFn_trace (env : Env) (e : Int) (done : Bool) (block : Block) (st : IndexState) :
    st.lw.trace <+: (rangeFn env e done block st).2.lw.trace := by
  have h1 := indexTxs_trace env block block.Transactions st
  unfold rangeFn
  rcases hr : indexTxs env block block.Transactions st with ⟨r, st1⟩
  rw [hr] at h1
  cases r with
  | some err => exact h1
  | none =>
    simp only
    cases block.Header with
    | none =>
      simp only
      split <;> exact h1
    | some hd =>
      simp only
      rcases st1.lw.txDB.Set e with ⟨r2, db⟩
      cases r2 with
      | some err => exact h1
      | none =>
        simp only
        split <;> exact h1

theorem walletGetTransactions_trace
    (f : Nat → Block → IndexState → (Bool × Option Error) × IndexState)
    (hf : ∀ i b st, st.lw.trace <+: (f i b st).2.lw.trace)
    (i : Nat) (blocks : List Block) (st : IndexState) :
    st.lw.trace <+: (walletGetTransactions f i blocks st).2.lw.trace := by
  induction blocks generalizing i st with
  | nil => exact List.prefix_refl _
  | cons b bs ih =>
    have h1 := hf i b st
    unfold walletGetTransactions
    rcases hr : f i b st with ⟨⟨stop, err⟩, st1⟩
    rw [hr] at h1
    cases stop <;> cases err
    · exact h1.trans (ih (i + 1) st1)
    · exact h1
    · exact h1
    · exact h1

/-- The first call that `scanRange` adds to the trace is the range scan of the
wallet, from the identifier of `startBlockHeight`. -/
theorem scanRange_trace (env : Env) (a e : Int) (lw : LibWallet) :
    ∃ endBlock rest, (scanRange env a e lw).2.trace =
      lw.trace ++ Effect.GetTransactions (NewBlockIdentifierFromHeight a) endBlock :: rest := by
  unfold scanRange
  simp only
  generalize (if a > e then env.GetBestBlock else e) = e1
  have h := walletGetTransactions_trace (fun i => rangeFn env e1 (env.ctxDone i))
    (fun i b st => rangeFn_trace env e1 (env.ctxDone i) b st) 0
    (env.blocksInRange (NewBlockIdentifierFromHeight a) (NewBlockIdentifierFromHeight e1))
    { lw := { lw with trace := lw.trace ++
        [Effect.GetTransactions (NewBlockIdentifierFromHeight a) (NewBlockIdentifierFromHeight e1)] }
      totalIndex := 0 }
  obtain ⟨t, ht⟩ := h
  refine ⟨NewBlockIdentifierFromHeight e1, t ++ [Effect.afterIndexing], ?_⟩
  rw [← ht]
  simp

/-! ## C1: the start of a resumed scan -/

/-- C1, as stated, fails at the stored watermark `-2147483648`: the `int32`
subtraction of the margin wraps around, the clamp at `0` does not fire, and the
scan is started at height `2147483642` instead of `max(0, W - 6) = 0`. -/
theorem indexTransactions_resume_wraps :
    isInt32 (-2147483648)
    ∧ (IndexTransactions demoEnv (-1) 100
        { txDB := { txs := [], endBlock := some (-2147483648), faults := [] }, trace := [] }).2.trace
      = [Effect.GetTransactions (NewBlockIdentifierFromHeight 2147483642)
           (NewBlockIdentifierFromHeight 10), Effect.afterIndexing]
    ∧ expectedResumeStart (some (-2147483648)) = 0 := by
  decide

/-- C1, amended: for every stored watermark `W` with `-2147483642 ≤ W` (so for
every block height), and when no watermark is stored, `IndexTransactions`
called with start `-1` whose read of the watermark does not fail runs the range
scan from height `max(0, W - 6)`, respectively `0`: the first call it makes is
the scan of the wallet from that height. For `W ≤ 6` that height is `0`. -/
theorem indexTransactions_resume (env : Env) (e : Int) (lw : LibWallet)
    (hrange : ∀ W, lw.txDB.endBlock = some W → -2147483642 ≤ W ∧ W ≤ 2147483647)
    (hok : lw.txDB.nextFault.1 = none) :
    IndexTransactions env (-1) e lw
      = scanRange env (expectedResumeStart lw.txDB.endBlock) e
          { lw with txDB := lw.txDB.nextFault.2 }
    ∧ (∃ endBlock rest, (IndexTransactions env (-1) e lw).2.trace
        = lw.trace ++ Effect.GetTransactions
            (NewBlockIdentifierFromHeight (expectedResumeStart lw.txDB.endBlock)) endBlock :: rest)
    ∧ (∀ W, lw.txDB.endBlock = some W → W ≤ 6 → expectedResumeStart lw.txDB.endBlock = 0) := by
  have hmain : IndexTransactions env (-1) e lw
      = scanRange env (expectedResumeStart lw.txDB.endBlock) e
          { lw with txDB := lw.txDB.nextFault.2 } := by
    unfold IndexTransactions
    rw [if_pos rfl, get_of_ok _ hok]
    cases hst : lw.txDB.endBlock with
    | none =>
      simp only [expectedResumeStart]
      rw [if_neg (by simp)]
      rw [resumeHeight_eq 0 (by omega)]
      rfl
    | some W =>
      simp only [expectedResumeStart]
      rw [resumeHeight_eq W (hrange W hst)]
  refine ⟨hmain, ?_, ?_⟩
  · rw [hmain]
    exact scanRange_trace env _ e _
  · intro W hW h6
    rw [hW]
    simp only [expectedResumeStart]
    exact max_eq_left (by omega)

/-- C1, amended, at the stored watermark `100` and at the watermark `4`. -/
theorem indexTransactions_resume_witness :
    (IndexTransactions demoEnv (-1) 50
        { txDB := { txs := [], endBlock := some 100, faults := [] }, trace := [] }
      = scanRange demoEnv 94 50 { txDB := { txs := [], endBlock := some 100, faults := [] }, trace := [] })
    ∧ expectedResumeStart (some 4) = 0 :=
  ⟨(indexTransactions_resume demoEnv 50
      { txDB := { txs := [], endBlock := some 100, faults := [] }, trace := [] }
      (by intro W h; cases h; decide) rfl).1,
   (indexTransactions_resume demoEnv 50
      { txDB := { txs := [], endBlock := some 4, faults := [] }, trace := [] }
      (by intro W h; cases h; decide) rfl).2.2 4 rfl (by decide)⟩

/-! ## C4: upsert by hash -/

theorem save_ok (tx : Transaction) (db : TxDB) (hok : (db.Save tx).1 = none) :
    (db.Save tx).2.txs = db.txs ++ [tx] ∧ (db.Save tx).2.endBlock = db.endBlock := by
  have h1 := nextFault_txs db
  have h2 := nextFault_endBlock db
  unfold TxDB.Save at hok ⊢
  rcases hnf : db.nextFault with ⟨f, db1⟩
  rw [hnf] at hok h1 h2
  cases f with
  | some e => simp at hok
  | none =>
    simp only at h1 h2 ⊢
    rw [h1, h2]
    exact ⟨rfl, rfl⟩

/-- A successful `saveOrUpdateTx` removes the first record with the hash of
`tx`, when there is one, and appends `tx`; the watermark slot is untouched. -/
theorem saveOrUpdateTx_ok (tx : Transaction) (db : TxDB)
    (hok : (saveOrUpdateTx tx db).1 = none) :
    (saveOrUpdateTx tx db).2.txs = db.txs.eraseP (hasHash tx.Hash) ++ [tx]
    ∧ (saveOrUpdateTx tx db).2.endBlock = db.endBlock := by
  have h1 := nextFault_txs db
  have h2 := nextFault_endBlock db
  have h3 := nextFault_ne_notFound db
  unfold saveOrUpdateTx TxDB.One at hok ⊢
  rcases hnf : db.nextFault with ⟨f, db1⟩
  rw [hnf] at hok h1 h2 h3
  simp only at h1 h2 h3
  cases f with
  | some e =>
    simp only at hok
    rw [if_pos (by intro h; exact h3 (by rw [h]))] at hok
    simp at hok
  | none =>
    simp only at hok ⊢
    rw [h1] at hok ⊢
    cases hfind : db.txs.find? (fun r => r.Hash == tx.Hash) with
    | none =>
      rw [hfind] at hok
      simp only [ne_eq, not_true_eq_false, if_false] at hok ⊢
      have hs := save_ok tx db1 hok
      rw [hs.1, hs.2, h1, h2]
      refine ⟨?_, rfl⟩
      rw [List.eraseP_of_forall_not]
      intro a ha
      have := List.find?_eq_none.mp hfind a ha
      simpa [hasHash] using this
    | some r =>
      rw [hfind] at hok
      simp only at hok ⊢
      have hr : r.Hash = tx.Hash := by
        have := List.find?_some hfind
        simpa using this
      have hmem : r ∈ db.txs := List.mem_of_find?_eq_some hfind
      have d1 := nextFault_txs db1
      have d2 := nextFault_endBlock db1
      unfold TxDB.DeleteStruct at hok ⊢
      rcases hnf1 : db1.nextFault with ⟨f1, db2⟩
      rw [hnf1] at hok d1 d2
      simp only at d1 d2
      cases f1 with
      | some e => simp at hok
      | none =>
        simp only at hok ⊢
        have hany : db2.txs.any (fun x => x.Hash == r.Hash) = true := by
          rw [d1, h1]
          exact List.any_eq_true.mpr ⟨r, hmem, by simp⟩
        simp only [hany, if_true] at hok ⊢
        have hs := save_ok tx _ hok
        rw [hs.1, hs.2]
        rw [d1, d2, h1, h2, hr]
        exact ⟨rfl, rfl⟩

theorem filter_eraseP_nodup (h : Hash) (l : List Transaction)
    (huniq : (l.map (fun r => r.Hash)).Nodup) :
    (l.eraseP (hasHash h)).filter (hasHash h) = [] := by
  induction l with
  | nil => rfl
  | cons a l ih =>
    rw [List.map_cons, List.nodup_cons] at huniq
    by_cases ha : hasHash h a = true
    · rw [List.eraseP_cons_of_pos ha]
      rw [List.filter_eq_nil_iff]
      intro b hb hbh
      apply huniq.1
      have e1 : a.Hash = h := by simpa [hasHash] using ha
      have e2 : b.Hash = h := by simpa [hasHash] using hbh
      rw [e1, ← e2]
      exact List.mem_map_of_mem _ hb
    · rw [List.eraseP_cons_of_neg ha, List.filter_cons_of_neg ha]
      exact ih huniq.2

theorem filter_not_eraseP (h : Hash) (l : List Transaction) :
    (l.eraseP (hasHash h)).filter (fun r => !hasHash h r) = l.filter (fun r => !hasHash h r) := by
  induction l with
  | nil => rfl
  | cons a l ih =>
    by_cases ha : hasHash h a = true
    · rw [List.eraseP_cons_of_pos ha, List.filter_cons_of_neg (by simp [ha])]
    · rw [List.eraseP_cons_of_neg ha]
      simp only [List.filter_cons, ih]

/-- C4: on a store in which every hash occurs at most once, a successful
`saveOrUpdateTx(tx)` leaves exactly one record with the hash of `tx`, that
record is `tx`, the records with other hashes are the same as before, every
hash still occurs at most once, the watermark slot is untouched, and a second
successful `saveOrUpdateTx(tx)` leaves the same records as the first. -/
theorem saveOrUpdateTx_upsert (tx : Transaction) (db : TxDB)
    (huniq : (db.txs.map (fun r => r.Hash)).Nodup)
    (hok : (saveOrUpdateTx tx db).1 = none) :
    (saveOrUpdateTx tx db).2.txs.filter (hasHash tx.Hash) = [tx]
    ∧ (saveOrUpdateTx tx db).2.txs.filter (fun r => !hasHash tx.Hash r)
        = db.txs.filter (fun r => !hasHash tx.Hash r)
    ∧ ((saveOrUpdateTx tx db).2.txs.map (fun r => r.Hash)).Nodup
    ∧ (saveOrUpdateTx tx db).2.endBlock = db.endBlock
    ∧ ((saveOrUpdateTx tx (saveOrUpdateTx tx db).2).1 = none →
        (saveOrUpdateTx tx (saveOrUpdateTx tx db).2).2.txs = (saveOrUpdateTx tx db).2.txs) := by
  obtain ⟨h1, h2⟩ := saveOrUpdateTx_ok tx db hok
  have hE := filter_eraseP_nodup tx.Hash db.txs huniq
  have hself : hasHash tx.Hash tx = true := by simp [hasHash]
  have hnone : ∀ b ∈ db.txs.eraseP (hasHash tx.Hash), ¬ hasHash tx.Hash b = true :=
    List.filter_eq_nil_iff.mp hE
  refine ⟨?_, ?_, ?_, h2, ?_⟩
  · rw [h1, List.filter_append, hE, List.nil_append, List.filter_cons_of_pos hself]
    rfl
  · rw [h1, List.filter_append, filter_not_eraseP]
    simp [hself]
  · rw [h1, List.map_append, List.nodup_append]
    refine ⟨(List.eraseP_sublist _).map _ |>.nodup huniq, by simp, ?_⟩
    intro a ha hb
    simp only [List.map_cons, List.map_nil, List.mem_singleton] at hb
    obtain ⟨b, hb1, hb2⟩ := List.mem_map.mp ha
    apply hnone b hb1
    simp only [hasHash, beq_iff_eq]
    rw [hb2, hb]
  · intro hok2
    obtain ⟨k1, _⟩ := saveOrUpdateTx_ok tx _ hok2
    rw [k1, h1, List.eraseP_append_right _ hnone, List.eraseP_cons_of_pos hself]
    simp

/-- C4 at a store of two records, one of which has the hash of the new record. -/
theorem saveOrUpdateTx_upsert_witness :
    (saveOrUpdateTx (demoTx 2 50) { txs := [demoTx 1 10, demoTx 2 20], endBlock := none, faults := [] }).2.txs
      = [demoTx 1 10, demoTx 2 50]
    ∧ (saveOrUpdateTx (demoTx 2 50)
        { txs := [demoTx 1 10, demoTx 2 20], endBlock := none, faults := [] }).2.txs.filter
          (hasHash 2) = [demoTx 2 50] :=
  ⟨by decide,
   (saveOrUpdateTx_upsert (demoTx 2 50)
      { txs := [demoTx 1 10, demoTx 2 20], endBlock := none, faults := [] }
      (by decide) (by decide)).1⟩

/-! ## C5: the listing -/

/-- Whenever `rangeFn` finishes a block that has a header without an error,
the value under `KeyEndBlock` is the captured `endBlockHeight`. -/
theorem rangeFn_writes_endBlockHeight (env : Env) (e : Int) (done : Bool) (block : Block)
    (st : IndexState) (hd : BlockHeader) (hh : block.Header = some hd)
    (hok : (rangeFn env e done block st).1 = (false, none)) :
    (rangeFn env e done block st).2.lw.txDB.endBlock = some e := by
  revert hok
  unfold rangeFn
  rcases indexTxs env block block.Transactions st with ⟨r, st1⟩
  cases r with
  | some err => simp
  | none =>
    simp only [hh]
    unfold TxDB.Set
    rcases st1.lw.txDB.nextFault with ⟨f, db1⟩
    cases f with
    | some err => simp
    | none =>
      simp only
      intro _
      split <;> rfl

/-- C2 at the block of height `3` of a scan that ends at height `10`: the
callback processes the block without failure and the value persisted under
`KeyEndBlock` is `10`, the end of the range, not the height `3` of the block. -/
theorem rangeFn_watermark_not_block_height :
    (rangeFn demoEnv 10 false
        { Header := some { Height := 3, Timestamp := 0, BlockHash := 3 }
          Transactions := [demoSummary 1 [1] 5] }
        { lw := { txDB := demoDB [], trace := [] }, totalIndex := 0 }).1 = (false, none)
    ∧ (rangeFn demoEnv 10 false
        { Header := some { Height := 3, Timestamp := 0, BlockHash := 3 }
          Transactions := [demoSummary 1 [1] 5] }
        { lw := { txDB := demoDB [], trace := [] }, totalIndex := 0 }).2.lw.txDB.endBlock
      = some 10 := by
  decide

/-! ## C7: the error of the listing query -/

/-- Whenever the query of `GetTransactionsRaw` fails, `GetTransactions`
returns the empty string and a nil error. -/
theorem getTransactions_of_query_error (env : Env) (offset limit : Int) (db : TxDB) (e : Error)
    (herr : (GetTransactionsRaw offset limit db).1.2 = some e) :
    (GetTransactions env offset limit db).1 = ("", none) := by
  revert herr
  unfold GetTransactions
  rcases GetTransactionsRaw offset limit db with ⟨⟨txs, err⟩, db1⟩
  intro herr
  simp only at herr
  subst herr
  rfl

/-- C7 at a store whose query fails with error code `5`: `GetTransactionsRaw`
reports the error, `GetTransactions` returns the empty string and no error. -/
theorem getTransactions_drops_error :
    (GetTransactionsRaw 0 0 (demoDB [some 5])).1 = ([], some (Error.failure 5))
    ∧ (GetTransactions demoEnv 0 0 (demoDB [some 5])).1 = ("", none) := by
  decide

/-! ## C9: the block height handed to the decoder -/

/-- For a summary that is not nil, the block height of `walletTx` is the height
that `BlockInfo` returns for the identifier built from the block hash, nil or
not, and `-1` only when `BlockInfo` fails. -/
theorem txInfoFromWallet_blockHeight (env : Env) (s : TransactionSummary)
    (blockHash : Option Hash) :
    (txInfoFromWallet env (some s) blockHash).map (fun w => w.BlockHeight) =
      some (match env.BlockInfo (NewBlockIdentifierFromHash blockHash) with
        | .error _ => -1
        | .ok blockInfo => blockInfo.Height) := by
  simp only [txInfoFromWallet, walletTxOf, resolveBlockHeight, Option.map_some']

/-- C9 at an unconfirmed summary (nil block hash) and a wallet whose
`BlockInfo` resolves the identifier of a nil hash to the block at height `0`:
the block height handed to the decoder is `0`, not `-1`. -/
theorem decode_unconfirmed_blockHeight :
    demoEnv.BlockInfo (NewBlockIdentifierFromHash none) = .ok { Height := 0 }
    ∧ (txInfoFromWallet demoEnv (some (demoSummary 1 [1] 5)) none).map (fun w => w.BlockHeight)
      = some 0 := by
  exact ⟨rfl, rfl⟩

/-! ## C10: the listener call after a failed store -/

/-- C10 at a notification with one unmined transaction whose store fails with
error code `9`: nothing is stored, and `OnTransaction` is called all the same. -/
theorem onTransaction_after_failed_store :
    (decodeTransactionWithTxSummary demoEnv (some (demoSummary 1 [1] 5)) none).toOption.map
        (fun tx => (saveOrUpdateTx tx (demoDB [some 9])).1) = some (some (Error.failure 9))
    ∧ TransactionNotification demoEnv
        [{ UnminedTransactions := [demoSummary 1 [1] 5], AttachedBlocks := [] }]
        { txDB := demoDB [some 9], trace := [] }
      = (Flow.next, { txDB := demoDB [], trace := [Effect.OnTransaction "tx"] }) := by
  exact ⟨rfl, rfl⟩

/-- A transaction of an attached block whose store fails is not reported: the
goroutine returns before `OnTransactionConfirmed`. -/
theorem blockTxLoop_store_failure (env : Env) (header : BlockHeader) (t : TransactionSummary)
    (rest : List TransactionSummary) (lw : LibWallet) (tx : Transaction) (e : Error)
    (hdec : decodeTransactionWithTxSummary env (some t) (some header.BlockHash) = .ok tx)
    (hsave : (saveOrUpdateTx tx lw.txDB).1 = some e) :
    blockTxLoop env header (t :: rest) lw
      = (Flow.returned, { lw with txDB := (saveOrUpdateTx tx lw.txDB).2 }) := by
  unfold blockTxLoop
  rw [hdec]
  rcases hs : saveOrUpdateTx tx lw.txDB with ⟨r, db⟩
  rw [hs] at hsave
  simp only at hsave
  subst hsave
  simp only [hs]

/-! ## C8: a failure inside a block of the scan -/

theorem one_endBlock (db : TxDB) (h : Hash) : (db.One h).2.endBlock = db.endBlock := by
  have h2 := nextFault_endBlock db
  unfold TxDB.One
  rcases hnf : db.nextFault with ⟨f, db1⟩
  rw [hnf] at h2
  cases f with
  | some e => exact h2
  | none =>
    simp only at h2 ⊢
    split <;> exact h2

theorem deleteStruct_endBlock (db : TxDB) (r : Transaction) :
    (db.DeleteStruct r).2.endBlock = db.endBlock := by
  have h2 := nextFault_endBlock db
  unfold TxDB.DeleteStruct
  rcases hnf : db.nextFault with ⟨f, db1⟩
  rw [hnf] at h2
  cases f with
  | some e => exact h2
  | none =>
    simp only at h2 ⊢
    split <;> exact h2

theorem save_endBlock (db : TxDB) (tx : Transaction) : (db.Save tx).2.endBlock = db.endBlock := by
  have h2 := nextFault_endBlock db
  unfold TxDB.Save
  rcases hnf : db.nextFault with ⟨f, db1⟩
  rw [hnf] at h2
  cases f with
  | some e => exact h2
  | none => exact h2

/-- The method `saveOrUpdateTx` never touches the watermark slot. -/
theorem saveOrUpdateTx_endBlock (tx : Transaction) (db : TxDB) :
    (saveOrUpdateTx tx db).2.endBlock = db.endBlock := by
  have h1 := one_endBlock db tx.Hash
  unfold saveOrUpdateTx
  rcases hone : db.One tx.Hash with ⟨r, db1⟩
  rw [hone] at h1
  simp only at h1
  cases r with
  | error err =>
    simp only
    split
    · exact h1
    · rw [save_endBlock, h1]
  | ok oldTx =>
    simp only
    have h2 := deleteStruct_endBlock db1 oldTx
    rcases hdel : db1.DeleteStruct oldTx with ⟨r2, db2⟩
    rw [hdel] at h2
    simp only at h2
    cases r2 with
    | some err => simp only; rw [h2, h1]
    | none => simp only; rw [save_endBlock, h2, h1]

theorem indexTx_endBlock (env : Env) (block : Block) (t : TransactionSummary) (st : IndexState) :
    (indexTx env block t st).2.lw.txDB.endBlock = st.lw.txDB.endBlock := by
  unfold indexTx
  simp only
  split
  · rfl
  · rename_i tx _
    have h := saveOrUpdateTx_endBlock tx st.lw.txDB
    rcases hs : saveOrUpdateTx tx st.lw.txDB with ⟨r, db⟩
    rw [hs] at h
    cases r <;> exact h

theorem indexTxs_endBlock (env : Env) (block : Block) (ts : List TransactionSummary)
    (st : IndexState) :
    (indexTxs env block ts st).2.lw.txDB.endBlock = st.lw.txDB.endBlock := by
  induction ts generalizing st with
  | nil => rfl
  | cons t ts ih =>
    have h1 := indexTx_endBlock env block t st
    unfold indexTxs
    rcases hr : indexTx env block t st with ⟨r, st1⟩
    rw [hr] at h1
    cases r with
    | some e => exact h1
    | none => simp only; rw [ih st1]; exact h1

theorem indexTxs_cons (env : Env) (block : Block) (t : TransactionSummary)
    (ts : List TransactionSummary) (st : IndexState) :
    indexTxs env block (t :: ts) st =
      match indexTx env block t st with
      | (some err, st1) => (some err, st1)
      | (none, st1) => indexTxs env block ts st1 := by
  rw [indexTxs]

theorem indexTxs_append (env : Env) (block : Block) (pre rest : List TransactionSummary)
    (st st1 : IndexState) (hpre : indexTxs env block pre st = (none, st1)) :
    indexTxs env block (pre ++ rest) st = indexTxs env block rest st1 := by
  induction pre generalizing st with
  | nil =>
    simp only [indexTxs, Prod.mk.injEq, true_and] at hpre
    rw [hpre]
    rfl
  | cons t ts ih =>
    revert hpre
    rw [List.cons_append, indexTxs_cons, indexTxs_cons]
    rcases indexTx env block t st with ⟨r, st2⟩
    cases r with
    | some e => simp
    | none => exact fun hpre => ih st2 hpre

theorem progressCalls_length (env : Env) (n : Int) :
    (progressCalls env n).length = env.syncProgressListeners := by
  simp [progressCalls]

theorem indexTx_ok_trace (env : Env) (block : Block) (t : TransactionSummary)
    (st st1 : IndexState) (h : indexTx env block t st = (none, st1)) :
    st1.lw.trace.length = st.lw.trace.length + env.syncProgressListeners := by
  revert h
  unfold indexTx
  simp only
  split
  · simp
  · rename_i tx _
    rcases saveOrUpdateTx tx st.lw.txDB with ⟨r, db⟩
    cases r with
    | some e => simp
    | none =>
      simp only [Prod.mk.injEq, true_and]
      intro h
      rw [← h]
      simp [progressCalls_length]

theorem indexTxs_ok_trace (env : Env) (block : Block) (ts : List TransactionSummary)
    (st st1 : IndexState) (h : indexTxs env block ts st = (none, st1)) :
    st1.lw.trace.length = st.lw.trace.length + ts.length * env.syncProgressListeners := by
  induction ts generalizing st with
  | nil =>
    simp only [indexTxs, Prod.mk.injEq, true_and] at h
    rw [← h]
    simp
  | cons t ts ih =>
    revert h
    unfold indexTxs
    rcases hr : indexTx env block t st with ⟨r, st2⟩
    cases r with
    | some e => simp
    | none =>
      intro h
      have h1 := indexTx_ok_trace env block t st st2 hr
      have h2 := ih st2 h
      rw [h2, h1, List.length_cons]
      ring

theorem indexTx_fails (env : Env) (block : Block) (k : TransactionSummary) (st : IndexState)
    (err : Error)
    (hk : decodeTransactionWithTxSummary env (some k) (block.Header.map fun h => h.BlockHash)
            = .error err
          ∨ ∃ tx, decodeTransactionWithTxSummary env (some k)
                (block.Header.map fun h => h.BlockHash) = .ok tx
              ∧ (saveOrUpdateTx tx st.lw.txDB).1 = some err) :
    (indexTx env block k st).1 = some err
    ∧ (indexTx env block k st).2.lw.trace = st.lw.trace
    ∧ (indexTx env block k st).2.totalIndex = st.totalIndex := by
  have hb : (match block.Header with
      | some header => some header.BlockHash
      | none => none) = block.Header.map fun h => h.BlockHash := by
    cases block.Header <;> rfl
  unfold indexTx
  simp only [hb]
  rcases hk with hd | ⟨tx, hd, hs⟩
  · rw [hd]
    exact ⟨rfl, rfl, rfl⟩
  · rw [hd]
    simp only
    rcases hsv : saveOrUpdateTx tx st.lw.txDB with ⟨r, db⟩
    rw [hsv] at hs
    simp only at hs
    subst hs
    exact ⟨rfl, rfl, rfl⟩

/-- C8: when the transactions before transaction `k` of a block are processed
without failure and decoding or storing `k` fails with error `err`, the callback
returns `(false, err)` at once: its final state is the state in which the
processing of `k` failed, whatever transactions follow `k` in the block; the
value under `KeyEndBlock` is the one the callback found; and the progress
listeners were called for the transactions before `k` only. -/
theorem rangeFn_aborts_on_failure (env : Env) (e : Int) (done : Bool) (block : Block)
    (pre post : List TransactionSummary) (k : TransactionSummary) (st st1 : IndexState)
    (err : Error)
    (hsplit : block.Transactions = pre ++ k :: post)
    (hpre : indexTxs env block pre st = (none, st1))
    (hk : decodeTransactionWithTxSummary env (some k) (block.Header.map fun h => h.BlockHash)
            = .error err
          ∨ ∃ tx, decodeTransactionWithTxSummary env (some k)
                (block.Header.map fun h => h.BlockHash) = .ok tx
              ∧ (saveOrUpdateTx tx st1.lw.txDB).1 = some err) :
    rangeFn env e done block st = ((false, some err), (indexTx env block k st1).2)
    ∧ (rangeFn env e done block st).2.lw.txDB.endBlock = st.lw.txDB.endBlock
    ∧ (rangeFn env e done block st).2.lw.trace = st1.lw.trace
    ∧ (rangeFn env e done block st).2.totalIndex = st1.totalIndex
    ∧ (rangeFn env e done block st).2.lw.trace.length
        = st.lw.trace.length + pre.length * env.syncProgressListeners := by
  obtain ⟨f1, f2, f3⟩ := indexTx_fails env block k st1 err hk
  have hrun : rangeFn env e done block st = ((false, some err), (indexTx env block k st1).2) := by
    unfold rangeFn
    rw [hsplit, indexTxs_append env block pre (k :: post) st st1 hpre]
    unfold indexTxs
    rcases hr : indexTx env block k st1 with ⟨r, st2⟩
    rw [hr] at f1
    simp only at f1
    subst f1
    rfl
  have hend : st1.lw.txDB.endBlock = st.lw.txDB.endBlock := by
    have := indexTxs_endBlock env block pre st
    rw [hpre] at this
    exact this
  refine ⟨hrun, ?_, ?_, ?_, ?_⟩
  · rw [hrun]
    simp only
    rw [indexTx_endBlock, hend]
  · rw [hrun]
    exact f2
  · rw [hrun]
    exact f3
  · rw [hrun]
    simp only
    rw [f2]
    exact indexTxs_ok_trace env block pre st st1 hpre

/-- C8 at a block whose second transaction cannot be decoded. -/
theorem rangeFn_aborts_on_failure_witness :
    rangeFn demoEnv 10 false
        { Header := some { Height := 3, Timestamp := 0, BlockHash := 3 }
          Transactions := [demoSummary 1 [1] 5, demoSummary 0 [] 6, demoSummary 2 [2] 7] }
        { lw := { txDB := demoDB [], trace := [] }, totalIndex := 0 }
      = ((false, some (Error.failure 7)),
         { lw := { txDB := { txs := [{ Hash := 1, Hex := [0, 1], Timestamp := 5, BlockHeight := 3,
                                        Confirmations := 8, TotalInputAmount := 0,
                                        TotalOutputAmount := 0 }],
                             endBlock := none, faults := [] },
                   trace := [Effect.OnIndexTransactions 0 1] },
           totalIndex := 1 }) :=
  (rangeFn_aborts_on_failure demoEnv 10 false
      { Header := some { Height := 3, Timestamp := 0, BlockHash := 3 }
        Transactions := [demoSummary 1 [1] 5, demoSummary 0 [] 6, demoSummary 2 [2] 7] }
      [demoSummary 1 [1] 5] [demoSummary 2 [2] 7] (demoSummary 0 [] 6)
      { lw := { txDB := demoDB [], trace := [] }, totalIndex := 0 }
      { lw := { txDB := { txs := [{ Hash := 1, Hex := [0, 1], Timestamp := 5, BlockHeight := 3,
                                     Confirmations := 8, TotalInputAmount := 0,
                                     TotalOutputAmount := 0 }],
                          endBlock := none, faults := [] },
                trace := [Effect.OnIndexTransactions 0 1] },
        totalIndex := 1 }
      (Error.failure 7) rfl rfl (Or.inl rfl)).1

/-! ## C6: a failure inside a notification -/

theorem unminedLoop_cons (env : Env) (t : TransactionSummary) (ts : List TransactionSummary)
    (lw : LibWallet) :
    unminedLoop env (t :: ts) lw =
      match decodeTransactionWithTxSummary env (some t) none with
      | .error _ => (Flow.returned, lw)
      | .ok decodedTx =>
        match env.Marshal decodedTx with
        | .error _ =>
          unminedLoop env ts { lw with txDB := (saveOrUpdateTx decodedTx lw.txDB).2 }
        | .ok result =>
          unminedLoop env ts
            { txDB := (saveOrUpdateTx decodedTx lw.txDB).2
              trace := lw.trace ++ [Effect.OnTransaction result] } := by
  rw [unminedLoop]

theorem unminedLoop_append (env : Env) (pre rest : List TransactionSummary)
    (lw lw1 : LibWallet) (hpre : unminedLoop env pre lw = (Flow.next, lw1)) :
    unminedLoop env (pre ++ rest) lw = unminedLoop env rest lw1 := by
  induction pre generalizing lw with
  | nil =>
    simp only [unminedLoop, Prod.mk.injEq, true_and] at hpre
    rw [hpre]
    rfl
  | cons t ts ih =>
    revert hpre
    rw [List.cons_append, unminedLoop_cons, unminedLoop_cons]
    cases decodeTransactionWithTxSummary env (some t) none with
    | error e => simp
    | ok tx =>
      simp only
      cases env.Marshal tx with
      | error e => exact fun h => ih _ h
      | ok r => exact fun h => ih _ h

theorem blockTxLoop_cons (env : Env) (header : BlockHeader) (t : TransactionSummary)
    (ts : List TransactionSummary) (lw : LibWallet) :
    blockTxLoop env header (t :: ts) lw =
      match decodeTransactionWithTxSummary env (some t) (some header.BlockHash) with
      | .error _ => (Flow.returned, lw)
      | .ok decodedTx =>
        match saveOrUpdateTx decodedTx lw.txDB with
        | (some _, db) => (Flow.returned, { lw with txDB := db })
        | (none, db) =>
          blockTxLoop env header ts
            { txDB := db
              trace := lw.trace ++
                [Effect.OnTransactionConfirmed t.Hash (wrapInt32 header.Height)] } := by
  rw [blockTxLoop]

theorem blockTxLoop_append (env : Env) (header : BlockHeader) (pre rest : List TransactionSummary)
    (lw lw1 : LibWallet) (hpre : blockTxLoop env header pre lw = (Flow.next, lw1)) :
    blockTxLoop env header (pre ++ rest) lw = blockTxLoop env header rest lw1 := by
  induction pre generalizing lw with
  | nil =>
    simp only [blockTxLoop, Prod.mk.injEq, true_and] at hpre
    rw [hpre]
    rfl
  | cons t ts ih =>
    revert hpre
    rw [List.cons_append, blockTxLoop_cons, blockTxLoop_cons]
    cases decodeTransactionWithTxSummary env (some t) (some header.BlockHash) with
    | error e => simp
    | ok tx =>
      simp only
      rcases saveOrUpdateTx tx lw.txDB with ⟨r, db⟩
      cases r with
      | some e => simp
      | none => exact fun h => ih _ h

theorem attachedLoop_cons (env : Env) (block : Block) (rest : List Block) (lw : LibWallet) :
    attachedLoop env (block :: rest) lw =
      match block.Header with
      | none => (Flow.panicked, lw)
      | some header =>
        match blockTxLoop env header block.Transactions
            { lw with trace := lw.trace ++
                [Effect.OnBlockAttached (wrapInt32 header.Height) header.Timestamp] } with
        | (Flow.next, lw2) => attachedLoop env rest lw2
        | stopped => stopped := by
  rw [attachedLoop]

theorem attachedLoop_append (env : Env) (pre rest : List Block) (lw lw1 : LibWallet)
    (hpre : attachedLoop env pre lw = (Flow.next, lw1)) :
    attachedLoop env (pre ++ rest) lw = attachedLoop env rest lw1 := by
  induction pre generalizing lw with
  | nil =>
    simp only [attachedLoop, Prod.mk.injEq, true_and] at hpre
    rw [hpre]
    rfl
  | cons b bs ih =>
    revert hpre
    rw [List.cons_append, attachedLoop_cons, attachedLoop_cons]
    cases b.Header with
    | none => simp
    | some header =>
      simp only
      rcases blockTxLoop env header b.Transactions _ with ⟨fl, lw2⟩
      cases fl with
      | next => exact fun h => ih _ h
      | returned => simp
      | panicked => simp

theorem transactionNotification_cons (env : Env) (n : TransactionNotifications)
    (rest : List TransactionNotifications) (lw : LibWallet) :
    TransactionNotification env (n :: rest) lw =
      match handleNotification env n lw with
      | (Flow.next, lw1) => TransactionNotification env rest lw1
      | stopped => stopped := by
  rw [TransactionNotification]

theorem transactionNotification_append (env : Env) (pre rest : List TransactionNotifications)
    (lw lw1 : LibWallet) (hpre : TransactionNotification env pre lw = (Flow.next, lw1)) :
    TransactionNotification env (pre ++ rest) lw = TransactionNotification env rest lw1 := by
  induction pre generalizing lw with
  | nil =>
    simp only [TransactionNotification, Prod.mk.injEq, true_and] at hpre
    rw [hpre]
    rfl
  | cons n ns ih =>
    revert hpre
    rw [List.cons_append, transactionNotification_cons, transactionNotification_cons]
    rcases handleNotification env n lw with ⟨fl, lw2⟩
    cases fl with
    | next => exact fun h => ih _ h
    | returned => simp
    | panicked => simp

/-- C6, as stated, fails on a feed of two notifications of which the first
carries a transaction that cannot be decoded: the goroutine returns, the second
notification is never consumed (nothing is stored, no listener call is made),
whereas the second notification alone is stored and reported. -/
theorem dispatcher_stops_at_failure :
    decodeTransactionWithTxSummary demoEnv (some (demoSummary 0 [] 5)) none
      = .error (Error.failure 7)
    ∧ TransactionNotification demoEnv
        [{ UnminedTransactions := [demoSummary 0 [] 5], AttachedBlocks := [] },
         { UnminedTransactions := [demoSummary 1 [1] 6], AttachedBlocks := [] }]
        { txDB := demoDB [], trace := [] }
      = (Flow.returned, { txDB := demoDB [], trace := [] })
    ∧ TransactionNotification demoEnv
        [{ UnminedTransactions := [demoSummary 1 [1] 6], AttachedBlocks := [] }]
        { txDB := demoDB [], trace := [] }
      = (Flow.next,
         { txDB := { txs := [{ Hash := 1, Hex := [0, 1], Timestamp := 6, BlockHeight := 0,
                               Confirmations := 11, TotalInputAmount := 0,
                               TotalOutputAmount := 0 }],
                     endBlock := none, faults := [] },
           trace := [Effect.OnTransaction "tx"] }) := by
  exact ⟨rfl, rfl, rfl⟩

/-- C6, amended: when the notifications before notification `n` leave the
dispatcher loop running and, while `n` is processed, decoding a transaction
fails or storing a transaction of an attached block fails, the dispatcher
stops processing `n` at that transaction and is terminated: the goroutine
returns in the state of the failure, whatever notifications follow `n` in the
feed, so that no later notification is consumed. -/
theorem dispatcher_returns_on_failure (env : Env) (pre rest : List TransactionNotifications)
    (n : TransactionNotifications) (lw lw0 lwF : LibWallet)
    (hpre : TransactionNotification env pre lw = (Flow.next, lw0))
    (hfail : NotificationFails env n lw0 lwF) :
    TransactionNotification env (pre ++ n :: rest) lw = (Flow.returned, lwF) := by
  rw [transactionNotification_append env pre (n :: rest) lw lw0 hpre, transactionNotification_cons]
  have hh : handleNotification env n lw0 = (Flow.returned, lwF) := by
    unfold handleNotification
    rcases hfail with ⟨upre, k, upost, hsplit, hU, err, hdec⟩ |
      ⟨lw1, bpre, b, bpost, header, lw2, tpre, k, tpost, lw3, hU, hbsplit, hA, hH, htsplit, hB, hk⟩
    · rw [hsplit, unminedLoop_append env upre (k :: upost) lw0 lwF hU, unminedLoop_cons, hdec]
    · rw [hU]
      simp only
      rw [hbsplit, attachedLoop_append env bpre (b :: bpost) lw1 lw2 hA, attachedLoop_cons, hH]
      simp only
      rw [htsplit, blockTxLoop_append env header tpre (k :: tpost) _ lw3 hB, blockTxLoop_cons]
      rcases hk with ⟨err, hdec, hF⟩ | ⟨tx, err, hdec, hsave, hF⟩
      · rw [hdec, hF]
      · rw [hdec]
        simp only
        rcases hs : saveOrUpdateTx tx lw3.txDB with ⟨r, db⟩
        rw [hs] at hsave hF
        simp only at hsave hF
        subst hsave
        rw [hF]
  rw [hh]

/-- C6, amended, on a feed of three notifications of which the second carries
an attached block whose transaction cannot be stored. -/
theorem dispatcher_returns_on_failure_witness :
    TransactionNotification demoEnv
        ([{ UnminedTransactions := [demoSummary 1 [1] 5], AttachedBlocks := [] }] ++
          { UnminedTransactions := []
            AttachedBlocks := [{ Header := some { Height := 3, Timestamp := 0, BlockHash := 3 }
                                 Transactions := [demoSummary 1 [1] 5] }] } ::
          [{ UnminedTransactions := [demoSummary 2 [2] 6], AttachedBlocks := [] }])
        { txDB := demoDB [none, none, some 4], trace := [] }
      = (Flow.returned,
         { txDB := { txs := [{ Hash := 1, Hex := [0, 1], Timestamp := 5, BlockHeight := 0,
                               Confirmations := 11, TotalInputAmount := 0,
                               TotalOutputAmount := 0 }],
                     endBlock := none, faults := [] },
           trace := [Effect.OnTransaction "tx", Effect.OnBlockAttached 3 0] }) :=
  dispatcher_returns_on_failure demoEnv
    [{ UnminedTransactions := [demoSummary 1 [1] 5], AttachedBlocks := [] }]
    [{ UnminedTransactions := [demoSummary 2 [2] 6], AttachedBlocks := [] }]
    { UnminedTransactions := []
      AttachedBlocks := [{ Header := some { Height := 3, Timestamp := 0, BlockHash := 3 }
                           Transactions := [demoSummary 1 [1] 5] }] }
    { txDB := demoDB [none, none, some 4], trace := [] }
    { txDB := { txs := [{ Hash := 1, Hex := [0, 1], Timestamp := 5, BlockHeight := 0,
                          Confirmations := 11, TotalInputAmount := 0, TotalOutputAmount := 0 }],
                endBlock := none, faults := [some 4] },
      trace := [Effect.OnTransaction "tx"] }
    _
    rfl
    (Or.inr ⟨_, [], _, [], { Height := 3, Timestamp := 0, BlockHash := 3 }, _, [],
      demoSummary 1 [1] 5, [], _, rfl, rfl, rfl, rfl, rfl, rfl,
      Or.inr ⟨_, Error.failure 4, rfl, rfl, rfl⟩⟩)

end Dcrlibwallet
